/-
Verification of the document-session and feature-editor layer of the
`pdf-editor-offline` repository, as a shallow embedding in Lean 4.

Source files embedded here:
  * `src/pdfsmarteditor/core/text_processor.py`      (TextProcessor)
  * `src/pdfsmarteditor/core/navigation_manager.py`  (NavigationManager)
  * `src/pdfsmarteditor/core/annotation_enhancer.py` (AnnotationEnhancer)
  * `src/pdfsmarteditor/core/image_processor.py`     (ImageProcessor)
  * `src/api/routes/documents.py`                    (page routes)

Conventions of the embedding:
  * Python floats are embedded as `ℚ` (the arithmetic in the claims is
    exact: sums, differences, products, divisions by nonzero values).
  * Python exceptions are embedded as `Except`-style results.  A stateful
    operation `doc.op(args)` becomes a function `op : Doc → Args → Doc × Except Err Res`
    returning the document state at the moment the operation finishes or
    raises, so that "the handle is unchanged by a failed call" is a real
    statement about the embedding.
  * The PyMuPDF engine (`fitz`) is an external collaborator.  The small
    part of it the claims depend on is embedded from its documented
    behaviour: `Rect.width`/`Rect.height` are the non-negative
    `max 0 (x1 - x0)` / `max 0 (y1 - y0)` (PyMuPDF documents that width
    and height of a rectangle can never be negative; this is also the
    only reading under which the repository's own passing test
    `test_crop_too_much` receives the 400 it asserts), and
    `doc.insert_pdf(src, start_at := p)` inserts `src`'s pages at
    position `p`.
-/

import Mathlib

namespace PDFEd

/-! ## String utilities

Python's `str.lower`, `str.replace` and the substring operator `in`,
specialised to the way `TextProcessor.find_best_match_font` uses them. -/

/-- Helper `leadEq needle hay`: `needle` is a leading segment of `hay`
(character lists compared with `==`). -/
def leadEq : List Char → List Char → Bool
  | [], _ => true
  | _ :: _, [] => false
  | a :: as, b :: bs => a == b && leadEq as bs

/-- Helper `hasSub needle hay` is Python's `needle in hay` on strings, over
character lists: `needle` occurs contiguously inside `hay`. -/
def hasSub (needle : List Char) : List Char → Bool
  | [] => needle.isEmpty
  | b :: bs => leadEq needle (b :: bs) || hasSub needle bs

/-- Python `s.lower().replace("-", "").replace(" ", "")`, as a character
list: lower-case every character, then drop `'-'` and `' '`. -/
def normChars (s : String) : List Char :=
  (s.data.map Char.toLower).filter fun c => !(c == '-' || c == ' ')

/-! ## TextProcessor.find_best_match_font
(`src/pdfsmarteditor/core/text_processor.py`, lines 19–48 and 127–162) -/

/-- Table `TextProcessor.FONT_SUBSTITUTIONS`, in Python dict insertion order. -/
def FONT_SUBSTITUTIONS : List (String × String) :=
  [("times", "Times-Roman"),
   ("timesnewroman", "Times-Roman"),
   ("arial", "Helvetica"),
   ("helvetica", "Helvetica"),
   ("courier", "Courier"),
   ("couriernew", "Courier"),
   ("verdana", "Helvetica"),
   ("georgia", "Times-Roman"),
   ("palatino", "Times-Roman"),
   ("bookman", "Times-Roman")]

/-- Table `TextProcessor.BUILTIN_FONTS`, in source order. -/
def BUILTIN_FONTS : List String :=
  ["Times-Roman", "Times-Bold", "Times-Italic", "Times-BoldItalic",
   "Helvetica", "Helvetica-Bold", "Helvetica-Oblique", "Helvetica-BoldOblique",
   "Courier", "Courier-Bold", "Courier-Oblique", "Courier-BoldOblique",
   "Symbol", "ZapfDingbats"]

/-- The key a built-in font is matched under:
`builtin.lower().replace("-", "")` (no space removal in the source). -/
def builtinKey (b : String) : List Char :=
  (b.data.map Char.toLower).filter fun c => !(c == '-')

/-- Embedding of `TextProcessor.find_best_match_font` (text_processor.py:127-162).
The source checks, in order: the first built-in font whose key occurs as
a substring of the normalised name; the first substitution key occurring
as a substring; then the bold/italic/oblique/courier/mono/times/serif
fallback chain; finally `"Helvetica"`. -/
def find_best_match_font (font_name : String) : String :=
  let normalized := normChars font_name
  match BUILTIN_FONTS.find? (fun b => hasSub (builtinKey b) normalized) with
  | some builtin => builtin
  | none =>
    match FONT_SUBSTITUTIONS.find? (fun kv => hasSub kv.1.data normalized) with
    | some kv => kv.2
    | none =>
      if hasSub "bold".data normalized && hasSub "italic".data normalized then
        "Helvetica-BoldOblique"
      else if hasSub "bold".data normalized then
        "Helvetica-Bold"
      else if hasSub "italic".data normalized || hasSub "oblique".data normalized then
        "Helvetica-Oblique"
      else if hasSub "courier".data normalized || hasSub "mono".data normalized then
        "Courier"
      else if hasSub "times".data normalized || hasSub "serif".data normalized then
        "Times-Roman"
      else
        "Helvetica"

example : find_best_match_font "Times-Roman" = "Times-Roman" := by decide
example : find_best_match_font "Helvetica-Bold" = "Helvetica" := by decide
example : find_best_match_font "Times-BoldItalic" = "Times-Bold" := by decide
example : find_best_match_font "SomeSerifFace" = "Times-Roman" := by decide
example : find_best_match_font "FooMono" = "Courier" := by decide
example : find_best_match_font "Unknown" = "Helvetica" := by decide
example : find_best_match_font "XyzBoldItalicFace" = "Helvetica-BoldOblique" := by decide

/-! ## Errors and list helpers -/

/-- The exceptions the embedded operations raise.
`invalidOperation` is `pdfsmarteditor.core.exceptions.InvalidOperationError`;
`http s` is FastAPI's `HTTPException(status_code := s)`. -/
inductive PyErr
  | invalidOperation
  | http (status : Nat)
deriving DecidableEq, Repr

instance [DecidableEq ε] [DecidableEq α] : DecidableEq (Except ε α) := fun x y =>
  match x, y with
  | .ok a, .ok b =>
      if h : a = b then isTrue (h ▸ rfl)
      else isFalse fun hh => h (Except.ok.inj hh)
  | .error a, .error b =>
      if h : a = b then isTrue (h ▸ rfl)
      else isFalse fun hh => h (Except.error.inj hh)
  | .ok _, .error _ => isFalse fun hh => Except.noConfusion hh
  | .error _, .ok _ => isFalse fun hh => Except.noConfusion hh

/-- Python `lst[i] = f(lst[i])` on an in-place list (identity out of range). -/
def modifyAt (f : α → α) : Nat → List α → List α
  | _, [] => []
  | 0, a :: as => f a :: as
  | n + 1, a :: as => a :: modifyAt f n as

/-- Python `lst.pop(i)` / `doc.delete_page(i)` (identity out of range). -/
def removeAt : List α → Nat → List α
  | [], _ => []
  | _ :: as, 0 => as
  | a :: as, n + 1 => a :: removeAt as n

/-- Engine model of `doc.insert_pdf(src, start_at := i)`: splice `new` in at position `i`. -/
def insertPagesAt (l : List α) (i : Nat) (new : List α) : List α :=
  l.take i ++ new ++ l.drop i

/-! ## Geometry: the `fitz.Rect` engine model -/

/-- Engine model of `fitz.Rect(x0, y0, x1, y1)`.  `y` grows downwards: `y0` is the top edge,
`y1` the bottom edge. -/
structure Rect where
  x0 : ℚ
  y0 : ℚ
  x1 : ℚ
  y1 : ℚ
deriving DecidableEq, Repr

/-- Engine model of `fitz.Rect.width`: documented by PyMuPDF as never negative. -/
def Rect.w (r : Rect) : ℚ := max 0 (r.x1 - r.x0)

/-- Engine model of `fitz.Rect.height`: documented by PyMuPDF as never negative. -/
def Rect.h (r : Rect) : ℚ := max 0 (r.y1 - r.y0)

/-- Containment: `r` lies inside `R` (PyMuPDF `r in R` for finite rects). -/
def Rect.containedIn (r R : Rect) : Prop :=
  R.x0 ≤ r.x0 ∧ R.y0 ≤ r.y0 ∧ r.x1 ≤ R.x1 ∧ r.y1 ≤ R.y1

instance (r R : Rect) : Decidable (r.containedIn R) := by
  unfold Rect.containedIn; infer_instance

/-! ## ImageProcessor.replace_image
(`src/pdfsmarteditor/core/image_processor.py`, lines 111–204) -/

/-- What `replace_image` does to a page, as an edit log. -/
inductive ImgEdit
  | redact (r : Rect)
  | insertImage (r : Rect)
deriving DecidableEq, Repr

/-- A page as the image processor sees it: the log of edits applied to it. -/
structure IPage where
  edits : List ImgEdit
deriving DecidableEq, Repr

abbrev IDoc := List IPage

/-- The `maintain_aspect` placement computation of `replace_image`
(image_processor.py:148-191), verbatim: `iw × ih` are the replacement
image's intrinsic page dimensions, and the insert rectangle is built as
`fitz.Rect(rect.x0 + x_offset, rect.y1 + y_offset,
           rect.x0 + x_offset + new_width, rect.y1 + y_offset + new_height)`
— note the source uses `rect.y1` (the bottom edge), not `rect.y0`, as
the vertical base of the insert rectangle. -/
def placementRect (rect : Rect) (iw ih : ℚ) : Rect :=
  let rect_width := rect.w
  let rect_height := rect.h
  let img_aspect := iw / ih
  if rect_width / rect_height > img_aspect then
    let new_height := rect_height
    let new_width := new_height * img_aspect
    let x_offset := (rect_width - new_width) / 2
    let y_offset : ℚ := 0
    ⟨rect.x0 + x_offset, rect.y1 + y_offset,
     rect.x0 + x_offset + new_width, rect.y1 + y_offset + new_height⟩
  else
    let new_width := rect_width
    let new_height := new_width / img_aspect
    let x_offset : ℚ := 0
    let y_offset := (rect_height - new_height) / 2
    ⟨rect.x0 + x_offset, rect.y1 + y_offset,
     rect.x0 + x_offset + new_width, rect.y1 + y_offset + new_height⟩

/-- Embedding of `ImageProcessor.replace_image` (image_processor.py:111-204).
`fileExists` is `os.path.exists(new_image_path)`; `img` is
`some (w, h)` when the engine can open the replacement file and read its
intrinsic page dimensions, `none` when that read fails (the source then
falls back to `insert_rect = rect`).  On success the page receives a
redaction of `old_rect` followed by an image insertion into the computed
rectangle, and the insert rectangle is returned. -/
def replace_image (doc : IDoc) (page_num : Int) (old_rect : Rect)
    (fileExists : Bool) (img : Option (ℚ × ℚ)) (maintain_aspect : Bool) :
    IDoc × Except PyErr Rect :=
  if page_num < 0 ∨ (doc.length : Int) ≤ page_num then
    (doc, .error .invalidOperation)
  else if !fileExists then
    (doc, .error .invalidOperation)
  else
    let insert_rect :=
      if maintain_aspect then
        match img with
        | some (iw, ih) => placementRect old_rect iw ih
        | none => old_rect
      else old_rect
    let doc' := modifyAt
      (fun p => ⟨p.edits ++ [.redact old_rect, .insertImage insert_rect]⟩)
      page_num.toNat doc
    (doc', .ok insert_rect)

example :
    placementRect ⟨0, 0, 100, 100⟩ 1 1 = ⟨0, 100, 100, 200⟩ := by
  norm_num [placementRect, Rect.w, Rect.h]
example :
    placementRect ⟨0, 0, 200, 100⟩ 1 1 = ⟨50, 100, 150, 200⟩ := by
  norm_num [placementRect, Rect.w, Rect.h]

/-! ## crop_page (`src/api/routes/documents.py`, lines 447–489) -/

/-- A page as the crop route sees it: its current `page.rect`. -/
structure CropPage where
  rect : Rect
deriving DecidableEq, Repr

abbrev CropDoc := List CropPage

/-- The `crop_page` route (documents.py:447-489): validate the page
index, build the new crop box from the margins, reject it with HTTP 400
when its width or height is not positive, otherwise apply
`set_cropbox`. -/
def crop_page (doc : CropDoc) (page_num : Int) (left top right bottom : ℚ) :
    CropDoc × Except PyErr (ℚ × ℚ) :=
  if page_num < 0 ∨ (doc.length : Int) ≤ page_num then
    (doc, .error (.http 400))
  else
    let current := (doc.getD page_num.toNat ⟨⟨0, 0, 0, 0⟩⟩).rect
    let new_rect : Rect :=
      ⟨current.x0 + left, current.y0 + top, current.x1 - right, current.y1 - bottom⟩
    if new_rect.w ≤ 0 ∨ new_rect.h ≤ 0 then
      (doc, .error (.http 400))
    else
      (modifyAt (fun _ => ⟨new_rect⟩) page_num.toNat doc, .ok (new_rect.w, new_rect.h))

example :
    crop_page [⟨⟨0, 0, 595, 842⟩⟩] 0 500 500 500 500
      = ([⟨⟨0, 0, 595, 842⟩⟩], .error (.http 400)) := by
  norm_num [crop_page, Rect.w, Rect.h]
example :
    crop_page [⟨⟨0, 0, 595, 842⟩⟩] 0 50 50 50 50
      = ([⟨⟨50, 50, 545, 792⟩⟩], .ok (495, 742)) := by
  norm_num [crop_page, Rect.w, Rect.h, modifyAt]

/-! ## Sessions and the page routes
(`src/api/routes/documents.py`; session plumbing from `api/deps.py`) -/

/-- A document session: the open handle's pages (as opaque page ids), the
cached `page_count` field of the session record, and the persisted copy on
durable storage. -/
structure Session where
  pages : List Nat
  page_count : Nat
  storage : List Nat
deriving DecidableEq, Repr

/-- Modelled from the spec: `persist_session_document` lives in
`api/deps.py`, which is not under `src/` (only its importers are).  Per
spec §4.1 it serializes the in-memory handle to the session's storage
path and returns the refreshed session record, and per spec §4.2 the
session's cached page count is recomputed from the handle after any
page-count-changing operation; the repository's test
`test_delete_page_allows_reorder` (which deletes a page through a route
that never writes `session["page_count"]` itself and then reads the
refreshed count back) confirms this refresh. -/
def persist_session_document (s : Session) : Session :=
  { s with storage := s.pages, page_count := s.pages.length }

/-- The `duplicate_page` route (documents.py:338-382): validate
`page_num`, default `insert_at` to `page_num + 1`, clamp an out-of-range
target to `len(doc)` (append at end), copy the page into the target
position, refresh the session page count, persist.  Returns
`(new_page_count, inserted_at)`. -/
def duplicate_page (s : Session) (page_num : Int) (insert_at : Option Int) :
    Session × Except PyErr (Nat × Int) :=
  if page_num < 0 ∨ (s.pages.length : Int) ≤ page_num then
    (s, .error (.http 400))
  else
    let tp := insert_at.getD (page_num + 1)
    let target : Int :=
      if tp < 0 ∨ (s.pages.length : Int) < tp then (s.pages.length : Int) else tp
    let copied := s.pages.getD page_num.toNat 0
    let pages' := insertPagesAt s.pages target.toNat [copied]
    let s' := { s with pages := pages', page_count := pages'.length }
    (persist_session_document s', .ok (pages'.length, target))

/-- Modelled from the spec: `PageManipulator.delete_page(n)` lives in
`pdfsmarteditor/core/manipulator.py`, which is not under `src/` (only
its callers are).  Per spec §4.2 page indices are 0-based and every
operation validates the index against the current handle extents,
failing with `InvalidOperationError` when out of range, before mutating;
on success the page is removed from the handle. -/
def manipulator_delete_page (pages : List Nat) (page_num : Int) :
    List Nat × Except PyErr Unit :=
  if page_num < 0 ∨ (pages.length : Int) ≤ page_num then
    (pages, .error .invalidOperation)
  else
    (removeAt pages page_num.toNat, .ok ())

/-- The `delete_page` route (documents.py:227-232): look up the session,
call `PageManipulator.delete_page`, persist.  The route itself never
writes `session["page_count"]`; a raised error propagates before the
persist call. -/
def delete_page_route (s : Session) (page_num : Int) :
    Session × Except PyErr Unit :=
  match manipulator_delete_page s.pages page_num with
  | (_, .error e) => (s, .error e)
  | (pages', .ok ()) =>
      (persist_session_document { s with pages := pages' }, .ok ())

/-- The `insert_pages_from_file` route (documents.py:492-537), after the
uploaded file has been validated and parsed into `newPages`: clamp an
out-of-range position to `len(doc)` (append at end), splice the pages
in, refresh the session page count, persist.  Returns
`(new_page_count, inserted_at)`. -/
def insert_pages_from_file (s : Session) (position : Int) (newPages : List Nat) :
    Session × Except PyErr (Nat × Int) :=
  let pos : Int :=
    if position < 0 ∨ (s.pages.length : Int) < position then (s.pages.length : Int)
    else position
  let pages' := insertPagesAt s.pages pos.toNat newPages
  let s' := { s with pages := pages', page_count := pages'.length }
  (persist_session_document s', .ok (pages'.length, pos))

/-- The `remove_blank_pages` route (documents.py:574-610): walk the
pages backwards collecting the indices of blank pages (no text, images
or drawings — abstracted as the predicate `isBlank` on the page id),
delete them in that backwards order, refresh the session page count,
persist.  Returns `(removed_indices, new_page_count)`. -/
def remove_blank_pages (s : Session) (isBlank : Nat → Bool) :
    Session × Except PyErr (List Nat × Nat) :=
  let blank_pages :=
    (List.range s.pages.length).reverse.filter fun i => isBlank (s.pages.getD i 0)
  let pages' := blank_pages.foldl (fun acc i => removeAt acc i) s.pages
  let s' := { s with pages := pages', page_count := pages'.length }
  (persist_session_document s', .ok (blank_pages, pages'.length))

example :
    duplicate_page ⟨[5, 6, 7], 3, [5, 6, 7]⟩ 0 none
      = (⟨[5, 5, 6, 7], 4, [5, 5, 6, 7]⟩, .ok (4, 1)) := by decide
example :
    duplicate_page ⟨[5, 6, 7], 3, [5, 6, 7]⟩ 1 (some 99)
      = (⟨[5, 6, 7, 6], 4, [5, 6, 7, 6]⟩, .ok (4, 3)) := by decide
example :
    delete_page_route ⟨[5, 6, 7], 3, [5, 6, 7]⟩ 1
      = (⟨[5, 7], 2, [5, 7]⟩, .ok ()) := by decide
example :
    delete_page_route ⟨[5, 6, 7], 3, [5, 6, 7]⟩ 3
      = (⟨[5, 6, 7], 3, [5, 6, 7]⟩, .error .invalidOperation) := by decide
example :
    remove_blank_pages ⟨[5, 6, 7], 3, [5, 6, 7]⟩ (fun p => p == 6)
      = (⟨[5, 7], 2, [5, 7]⟩, .ok ([1], 2)) := by decide

/-! ## NavigationManager
(`src/pdfsmarteditor/core/navigation_manager.py`) -/

/-- One TOC entry `(level, title, page)`; `page` is 1-indexed. -/
structure TocEntry where
  level : Int
  title : String
  page : Int
deriving DecidableEq, Repr

/-- The document as the navigation manager sees it: its TOC (the
engine's `get_toc()`/`set_toc()` state) and its page count. -/
structure NavDoc where
  toc : List TocEntry
  pageCount : Nat
deriving DecidableEq, Repr

/-- Embedding of `NavigationManager.add_bookmark` (navigation_manager.py:101-142):
reject an empty title or an out-of-range 1-indexed page, otherwise read
the whole TOC, append the new entry, write the whole TOC back, and
return the new entry's index `len(toc) - 1`. -/
def add_bookmark (d : NavDoc) (level : Int) (title : String) (page_num : Int) :
    NavDoc × Except PyErr Int :=
  if title == "" then
    (d, .error .invalidOperation)
  else if page_num < 1 ∨ (d.pageCount : Int) < page_num then
    (d, .error .invalidOperation)
  else
    let toc' := d.toc ++ [⟨level, title, page_num⟩]
    ({ d with toc := toc' }, .ok ((toc'.length : Int) - 1))

/-- Embedding of `NavigationManager.delete_bookmark` (navigation_manager.py:144-184):
read the whole TOC, reject an out-of-range index, otherwise pop the
entry at that index and write the whole TOC back, returning the deleted
entry. -/
def delete_bookmark (d : NavDoc) (index : Int) :
    NavDoc × Except PyErr TocEntry :=
  if index < 0 ∨ (d.toc.length : Int) ≤ index then
    (d, .error .invalidOperation)
  else
    let deleted := d.toc.getD index.toNat ⟨1, "", 1⟩
    ({ d with toc := removeAt d.toc index.toNat }, .ok deleted)

/-- An entry `set_toc` accepts: `1 ≤ page ≤ page count`. -/
def validTocPage (d : NavDoc) (e : TocEntry) : Bool :=
  decide (1 ≤ e.page ∧ e.page ≤ (d.pageCount : Int))

/-- The error string `set_toc` records for the entry at position `i`
with out-of-range page `p`: `f"Item {i}: Invalid page number {p}"`. -/
def tocItemError (i : Nat) (p : Int) : String :=
  "Item " ++ toString i ++ ": Invalid page number " ++ toString p

/-- The loop body of `NavigationManager.set_toc`
(navigation_manager.py:71-89): an entry with an out-of-range page is
dropped and contributes one error string; a valid entry is kept. -/
def setTocStep (d : NavDoc) (acc : List TocEntry × List String × Nat)
    (item : TocEntry) : List TocEntry × List String × Nat :=
  let (kept, errs, i) := acc
  if item.page < 1 ∨ (d.pageCount : Int) < item.page then
    (kept, errs ++ [tocItemError i item.page], i + 1)
  else
    (kept ++ [item], errs, i + 1)

/-- Embedding of `NavigationManager.set_toc` (navigation_manager.py:61-99): filter
the input entries, dropping each out-of-range one with an error string,
write the remaining entries as the document's entire TOC, and return
`(count of entries written, error strings)`. -/
def set_toc (d : NavDoc) (items : List TocEntry) :
    NavDoc × Except PyErr (Nat × List String) :=
  let res := items.foldl (setTocStep d) ([], [], 0)
  ({ d with toc := res.1 }, .ok (res.1.length, res.2.1))

example :
    add_bookmark ⟨[⟨1, "a", 1⟩], 2⟩ 1 "b" 2
      = (⟨[⟨1, "a", 1⟩, ⟨1, "b", 2⟩], 2⟩, .ok 1) := by decide
example :
    delete_bookmark ⟨[⟨1, "a", 1⟩, ⟨1, "b", 2⟩], 2⟩ 1
      = (⟨[⟨1, "a", 1⟩], 2⟩, .ok ⟨1, "b", 2⟩) := by decide
example :
    set_toc ⟨[⟨1, "old", 1⟩], 2⟩ [⟨1, "a", 1⟩, ⟨1, "bad", 3⟩, ⟨2, "b", 2⟩]
      = (⟨[⟨1, "a", 1⟩, ⟨2, "b", 2⟩], 2⟩,
         .ok (2, ["Item 1: Invalid page number 3"])) := by decide

/-! ## TextProcessor.replace_text_preserve_font
(`src/pdfsmarteditor/core/text_processor.py`, lines 55–96 and 211–291) -/

/-- One text span of `page.get_text("dict")`: bounding box plus the font
properties `replace_text_preserve_font` samples. -/
structure Span where
  bbox : Rect
  font : String
  size : ℚ
  color : ℚ × ℚ × ℚ
deriving DecidableEq, Repr

/-- What `replace_text_preserve_font` does to a page, as an edit log:
`redact r` is `add_redact_annot(r, fill=(1,1,1))` + `apply_redactions()`
and `insertText` is `insert_text(point, text, fontname, fontsize, color)`. -/
inductive TextEdit
  | redact (r : Rect)
  | insertText (p : ℚ × ℚ) (text font : String) (size : ℚ) (color : ℚ × ℚ × ℚ)
deriving DecidableEq, Repr

/-- A page as the text processor sees it: its spans (for font
sampling), the engine's `search_for` results per search string, and the
log of edits applied to it. -/
structure TPage where
  spans : List Span
  occ : List (String × List Rect)
  edits : List TextEdit
deriving DecidableEq, Repr

abbrev TDoc := List TPage

instance : Inhabited TPage := ⟨⟨[], [], []⟩⟩

/-- Engine model of `page.search_for(s)`: the page's occurrence rectangles for `s`. -/
def searchFor (page : TPage) (s : String) : List Rect :=
  ((page.occ.find? fun kv => kv.1 == s).map Prod.snd).getD []

/-- The font properties sampled at `(x, y)`.
This is the span scan of `TextProcessor.get_font_at_position`
(text_processor.py:55-96) after its page-index validation (the caller
below has already validated the same index, so that re-validation
cannot fire): the first span whose bbox contains the point yields
`(font, size, color)`. -/
def fontAtPosition (page : TPage) (x y : ℚ) : Option (String × ℚ × ℚ × ℚ × ℚ) :=
  (page.spans.find? fun sp =>
      decide (sp.bbox.x0 ≤ x ∧ x ≤ sp.bbox.x1 ∧ sp.bbox.y0 ≤ y ∧ y ≤ sp.bbox.y1)).map
    fun sp => (sp.font, sp.size, sp.color)

/-- The per-occurrence body of `replace_text_preserve_font`
(text_processor.py:248-285): sample the font at the occurrence's
midpoint (defaulting to Helvetica 12 black), map it through
`find_best_match_font`, redact the occurrence rectangle, and insert the
replacement text at the baseline-adjusted point.  In the embedding the
engine's `insert_text` succeeds (the font name is always one of the
engine's built-ins), so every occurrence counts as one replacement. -/
def replaceStep (pn : Nat) (new_text : String)
    (acc : TDoc × Nat × List Rect) (rect : Rect) : TDoc × Nat × List Rect :=
  let (doc, count, rects) := acc
  let page := doc.getD pn default
  let sampled := fontAtPosition page ((rect.x0 + rect.x1) / 2) ((rect.y0 + rect.y1) / 2)
  let font_name := find_best_match_font ((sampled.map fun f => f.1).getD "Helvetica")
  let font_size := (sampled.map fun f => f.2.1).getD 12
  let font_color := (sampled.map fun f => f.2.2).getD (0, 0, 0)
  let point : ℚ × ℚ := (rect.x0, rect.y1 - font_size * (2 / 10))
  let doc' := modifyAt
    (fun p => { p with edits := p.edits ++
        [.redact rect, .insertText point new_text font_name font_size font_color] })
    pn doc
  (doc', count + 1, rects ++ [rect])

/-- Embedding of `TextProcessor.replace_text_preserve_font`
(text_processor.py:211-291): validate the page index and the search
text, search for the occurrences, return `count = 0` when there are
none, and otherwise redact-and-overlay each occurrence, returning the
number of replacements performed and the affected rectangles. -/
def replace_text_preserve_font (doc : TDoc) (page_num : Int)
    (search_text new_text : String) : TDoc × Except PyErr (Nat × List Rect) :=
  if page_num < 0 ∨ (doc.length : Int) ≤ page_num then
    (doc, .error .invalidOperation)
  else if search_text == "" then
    (doc, .error .invalidOperation)
  else
    let pn := page_num.toNat
    let text_instances := searchFor (doc.getD pn default) search_text
    if text_instances.isEmpty then
      (doc, .ok (0, []))
    else
      let res := text_instances.foldl (replaceStep pn new_text) (doc, 0, [])
      (res.1, .ok res.2)

/-! ## AnnotationEnhancer.add_freehand_highlight
(`src/pdfsmarteditor/core/annotation_enhancer.py`, lines 383–479) -/

/-- Python division guarded exactly where the claim cares: `none` iff
the divisor is zero. -/
def safeDiv (a b : ℚ) : Option ℚ := if b = 0 then none else some (a / b)

/-- The un-normalised perpendicular direction the source computes for
one path segment (annotation_enhancer.py:424-431): for `x2 != x1` it is
`(-slope, 1)` with `slope = (y2 - y1) / (x2 - x1)`, otherwise the fixed
`(1, 0)`.  The subsequent normalisation divides by
`sqrt(perp_x² + perp_y²)`, whose square is `normSq` below. -/
def segPerp (p q : ℚ × ℚ) : Option (ℚ × ℚ) :=
  if q.1 ≠ p.1 then
    (safeDiv (q.2 - p.2) (q.1 - p.1)).map fun slope => (-slope, 1)
  else
    some (1, 0)

/-- The squared length of the normalisation divisor. -/
def normSq (v : ℚ × ℚ) : ℚ := v.1 ^ 2 + v.2 ^ 2

/-- The consecutive pairs `(points[i], points[i+1])` the quad loop
(annotation_enhancer.py:417-445) ranges over. -/
def consecPairs : List α → List (α × α)
  | a :: b :: rest => (a, b) :: consecPairs (b :: rest)
  | _ => []

/-- The perpendicular datum of each quad the loop emits: one entry per
consecutive pair of path points. -/
def freehandQuadPerps (points : List (ℚ × ℚ)) : List (Option (ℚ × ℚ)) :=
  (consecPairs points).map fun pq => segPerp pq.1 pq.2

/-- A page as the annotation enhancer sees it: the log of freehand
highlights added to it, each recorded by its path points. -/
structure APage where
  annots : List (List (ℚ × ℚ))
deriving DecidableEq, Repr

abbrev ADoc := List APage

/-- Embedding of `AnnotationEnhancer.add_freehand_highlight`
(annotation_enhancer.py:383-479): validate the page index, require at
least 2 points, build one quad per consecutive point pair, and add the
highlight to the page.  In the embedding the engine's
`add_highlight_annot` on the nonempty quad list succeeds. -/
def add_freehand_highlight (doc : ADoc) (page_num : Int)
    (points : List (ℚ × ℚ)) : ADoc × Except PyErr Nat :=
  if page_num < 0 ∨ (doc.length : Int) ≤ page_num then
    (doc, .error .invalidOperation)
  else if points.length < 2 then
    (doc, .error .invalidOperation)
  else
    let quads := freehandQuadPerps points
    (modifyAt (fun p => ⟨p.annots ++ [points]⟩) page_num.toNat doc,
     .ok quads.length)

/-! ## Helper lemmas -/

theorem persist_page_count (s : Session) :
    (persist_session_document s).page_count
      = (persist_session_document s).pages.length := rfl

theorem insertPagesAt_length (l : List α) (i : Nat) (new : List α)
    (h : i ≤ l.length) :
    (insertPagesAt l i new).length = l.length + new.length := by
  simp [insertPagesAt]
  omega

theorem removeAt_append_len (l : List α) (a : α) :
    removeAt (l ++ [a]) l.length = l := by
  induction l with
  | nil => rfl
  | cons x xs ih => simp [removeAt, ih]

theorem getD_append_len (l : List α) (a d : α) :
    (l ++ [a]).getD l.length d = a := by
  induction l with
  | nil => rfl
  | cons x xs ih => simp [ih]

/-! ## Claim theorems -/

/-- Claim C1: for every session, after `duplicate_page`,
`insert_pages_from_file`, `remove_blank_pages` or `delete_page`
completes successfully, the `page_count` field stored in the session
record equals the actual number of pages of the session's document
handle. -/
theorem C1_page_count_invariant :
    (∀ (s s' : Session) (n : Int) (ins : Option Int) (r : Nat × Int),
        duplicate_page s n ins = (s', .ok r) →
        s'.page_count = s'.pages.length) ∧
    (∀ (s s' : Session) (pos : Int) (newPages : List Nat) (r : Nat × Int),
        insert_pages_from_file s pos newPages = (s', .ok r) →
        s'.page_count = s'.pages.length) ∧
    (∀ (s s' : Session) (isBlank : Nat → Bool) (r : List Nat × Nat),
        remove_blank_pages s isBlank = (s', .ok r) →
        s'.page_count = s'.pages.length) ∧
    (∀ (s s' : Session) (n : Int),
        delete_page_route s n = (s', .ok ()) →
        s'.page_count = s'.pages.length) := by
  refine ⟨?_, ?_, ?_, ?_⟩
  · intro s s' n ins r h
    unfold duplicate_page at h
    split at h
    · injection h with h1 h2
      exact Except.noConfusion h2
    · injection h with h1 h2
      subst h1
      exact persist_page_count _
  · intro s s' pos newPages r h
    unfold insert_pages_from_file at h
    injection h with h1 h2
    subst h1
    exact persist_page_count _
  · intro s s' isBlank r h
    unfold remove_blank_pages at h
    injection h with h1 h2
    subst h1
    exact persist_page_count _
  · intro s s' n h
    unfold delete_page_route at h
    split at h
    · injection h with h1 h2
      exact Except.noConfusion h2
    · injection h with h1 h2
      subst h1
      exact persist_page_count _

theorem C1_page_count_invariant_witness :
    ((⟨[1, 1, 2, 3], 4, [1, 1, 2, 3]⟩ : Session).page_count
        = (⟨[1, 1, 2, 3], 4, [1, 1, 2, 3]⟩ : Session).pages.length) ∧
    ((⟨[9, 1, 2, 3], 4, [9, 1, 2, 3]⟩ : Session).page_count
        = (⟨[9, 1, 2, 3], 4, [9, 1, 2, 3]⟩ : Session).pages.length) ∧
    ((⟨[1, 3], 2, [1, 3]⟩ : Session).page_count
        = (⟨[1, 3], 2, [1, 3]⟩ : Session).pages.length) ∧
    ((⟨[2, 3], 2, [2, 3]⟩ : Session).page_count
        = (⟨[2, 3], 2, [2, 3]⟩ : Session).pages.length) :=
  ⟨C1_page_count_invariant.1 ⟨[1, 2, 3], 3, [1, 2, 3]⟩ _ 0 none (4, 1) (by decide),
   C1_page_count_invariant.2.1 ⟨[1, 2, 3], 3, [1, 2, 3]⟩ _ 0 [9] (4, 0) (by decide),
   C1_page_count_invariant.2.2.1 ⟨[1, 2, 3], 3, [1, 2, 3]⟩ _ (fun p => p == 2) ([1], 2)
     (by decide),
   C1_page_count_invariant.2.2.2 ⟨[1, 2, 3], 3, [1, 2, 3]⟩ _ 0 (by decide)⟩

/-- Claim C4: for every valid 0-based page index `n` of a `k`-page
document, `duplicate_page(n)` with `insert_at` omitted inserts the copy
at position `n + 1` (returning `inserted_at = n + 1` and page count
`k + 1`), and any `insert_at` outside `[0, k]` is clamped to `k`
(append at end) rather than raising an error. -/
theorem C4_duplicate_page_contract (s : Session) (n : Int)
    (h0 : 0 ≤ n) (hn : n < (s.pages.length : Int)) :
    duplicate_page s n none
      = (persist_session_document
          { s with
            pages := insertPagesAt s.pages (n.toNat + 1) [s.pages.getD n.toNat 0],
            page_count := s.pages.length + 1 },
         .ok (s.pages.length + 1, n + 1)) ∧
    (∀ ins : Int, ins < 0 ∨ (s.pages.length : Int) < ins →
        (duplicate_page s n (some ins)).2
          = .ok (s.pages.length + 1, (s.pages.length : Int))) := by
  constructor
  · unfold duplicate_page
    rw [if_neg (by omega)]
    simp only [Option.getD_none]
    rw [if_neg (by omega)]
    have ht : (n + 1).toNat = n.toNat + 1 := by omega
    have hlen : (insertPagesAt s.pages (n.toNat + 1) [s.pages.getD n.toNat 0]).length
        = s.pages.length + 1 := by
      rw [insertPagesAt_length _ _ _ (by omega)]
      simp
    rw [ht, hlen]
  · intro ins hins
    unfold duplicate_page
    rw [if_neg (by omega)]
    simp only [Option.getD_some]
    rw [if_pos hins]
    have ht : ((s.pages.length : Int)).toNat = s.pages.length := by omega
    have hlen : (insertPagesAt s.pages ((s.pages.length : Int)).toNat
          [s.pages.getD n.toNat 0]).length = s.pages.length + 1 := by
      rw [ht, insertPagesAt_length _ _ _ (by omega)]
      simp
    rw [hlen]

theorem C4_duplicate_page_contract_witness :
    duplicate_page ⟨[1, 2, 3], 3, [1, 2, 3]⟩ 0 none
        = (⟨[1, 1, 2, 3], 4, [1, 1, 2, 3]⟩, .ok (4, 1)) ∧
    (duplicate_page ⟨[1, 2, 3], 3, [1, 2, 3]⟩ 0 (some 99)).2 = .ok (4, 3) :=
  ⟨(C4_duplicate_page_contract ⟨[1, 2, 3], 3, [1, 2, 3]⟩ 0 (by decide) (by decide)).1,
   (C4_duplicate_page_contract ⟨[1, 2, 3], 3, [1, 2, 3]⟩ 0 (by decide) (by decide)).2
     99 (by decide)⟩

/-- Claim C5: adding a valid bookmark and then deleting it by the index
the add returned restores the TOC exactly — the deletion removes the
entry the add appended, leaving the document identical to before the
add. -/
theorem C5_add_delete_roundtrip (d d₁ : NavDoc) (level : Int) (title : String)
    (page i : Int)
    (h : add_bookmark d level title page = (d₁, .ok i)) :
    delete_bookmark d₁ i = (d, .ok ⟨level, title, page⟩) := by
  unfold add_bookmark at h
  split at h
  · injection h with h1 h2
    exact Except.noConfusion h2
  · split at h
    · injection h with h1 h2
      exact Except.noConfusion h2
    · injection h with h1 h2
      subst h1
      injection h2 with h3
      subst h3
      unfold delete_bookmark
      rw [if_neg (by simp)]
      have ht : (((d.toc ++ [(⟨level, title, page⟩ : TocEntry)]).length : Int) - 1).toNat
          = d.toc.length := by simp
      rw [ht, removeAt_append_len, getD_append_len]

theorem C5_add_delete_roundtrip_witness :
    delete_bookmark ⟨[⟨1, "a", 1⟩, ⟨1, "b", 2⟩], 2⟩ 1
      = (⟨[⟨1, "a", 1⟩], 2⟩, .ok ⟨1, "b", 2⟩) :=
  C5_add_delete_roundtrip ⟨[⟨1, "a", 1⟩], 2⟩ _ 1 "b" 2 1 (by decide)

/-- Claim C2, counterexample: the claim says every exact built-in font name
is returned unchanged, but the source matches built-ins by *substring*
of the normalised name in list order, so the exact built-in name
`"Helvetica-Bold"` (explicitly cited by the claim) matches the earlier
entry `"Helvetica"` first and is not returned unchanged. -/
theorem C2_exact_builtin_counterexample :
    "Helvetica-Bold" ∈ BUILTIN_FONTS ∧
    find_best_match_font "Helvetica-Bold" = "Helvetica" ∧
    find_best_match_font "Helvetica-Bold" ≠ "Helvetica-Bold" := by decide

/-- Claim C2, amended: `find_best_match_font` returns the *first* built-in
font (in table order) whose normalised name is a substring of the
normalised input.  Built-in names that are their own first match
(`Times-Roman`, `Times-Bold`, `Times-Italic`, `Helvetica`, `Courier`,
`Symbol`, `ZapfDingbats`) map to themselves; the remaining built-in
names map to the earlier entry whose name is a prefix of theirs
(`Times-BoldItalic ↦ Times-Bold`, the `Helvetica-*` variants ↦
`Helvetica`, the `Courier-*` variants ↦ `Courier`).  Otherwise the
substitution table applies, then the bold/italic flag composition, then
the courier/mono and times/serif family keywords, and finally the
sans-serif default `"Helvetica"`. -/
theorem C2_font_match_amended :
    (find_best_match_font "Times-Roman" = "Times-Roman" ∧
     find_best_match_font "Times-Bold" = "Times-Bold" ∧
     find_best_match_font "Times-Italic" = "Times-Italic" ∧
     find_best_match_font "Helvetica" = "Helvetica" ∧
     find_best_match_font "Courier" = "Courier" ∧
     find_best_match_font "Symbol" = "Symbol" ∧
     find_best_match_font "ZapfDingbats" = "ZapfDingbats") ∧
    (find_best_match_font "Times-BoldItalic" = "Times-Bold" ∧
     find_best_match_font "Helvetica-Bold" = "Helvetica" ∧
     find_best_match_font "Helvetica-Oblique" = "Helvetica" ∧
     find_best_match_font "Helvetica-BoldOblique" = "Helvetica" ∧
     find_best_match_font "Courier-Bold" = "Courier" ∧
     find_best_match_font "Courier-Oblique" = "Courier" ∧
     find_best_match_font "Courier-BoldOblique" = "Courier") ∧
    (find_best_match_font "ArialMT" = "Helvetica" ∧
     find_best_match_font "Verdana" = "Helvetica" ∧
     find_best_match_font "Georgia" = "Times-Roman" ∧
     find_best_match_font "CourierNewPSMT" = "Courier") ∧
    (find_best_match_font "XyzBoldItalicFace" = "Helvetica-BoldOblique" ∧
     find_best_match_font "XyzBold" = "Helvetica-Bold" ∧
     find_best_match_font "XyzOblique" = "Helvetica-Oblique" ∧
     find_best_match_font "FooMono" = "Courier" ∧
     find_best_match_font "SomeSerifFace" = "Times-Roman" ∧
     find_best_match_font "Unknown" = "Helvetica") := by decide

/-- Claim C3: evaluation of the `maintain_aspect = True` placement at a
failing input.  The claim says the placement rectangle is contained
within and centered inside `old_rect`; the source builds the insert
rectangle from `rect.y1 + y_offset` (the *bottom* edge of `old_rect`)
instead of `rect.y0 + y_offset`, so for the square `old_rect
(0, 0, 100, 100)` and a square replacement image the computed rectangle
is `(0, 100, 100, 200)` — directly *below* `old_rect` and disjoint from
its interior — contradicting the source's own comments
"Fit within the original rectangle" / "Center vertically". -/
theorem C3_replace_image_placement_bug :
    placementRect ⟨0, 0, 100, 100⟩ 1 1 = ⟨0, 100, 100, 200⟩ ∧
    ¬ (placementRect ⟨0, 0, 100, 100⟩ 1 1).containedIn ⟨0, 0, 100, 100⟩ ∧
    replace_image [⟨[]⟩] 0 ⟨0, 0, 100, 100⟩ true (some (1, 1)) true
      = ([⟨[.redact ⟨0, 0, 100, 100⟩, .insertImage ⟨0, 100, 100, 200⟩]⟩],
         .ok ⟨0, 100, 100, 200⟩) := by
  refine ⟨?_, ?_, ?_⟩
  · norm_num [placementRect, Rect.w, Rect.h]
  · norm_num [placementRect, Rect.w, Rect.h, Rect.containedIn]
  · norm_num [replace_image, placementRect, Rect.w, Rect.h, modifyAt]

/-- Claim C9: on a 595×842-point page, `crop_page` with margins
`left = top = right = bottom = 500` fails with HTTP 400 — the crop box
`(500, 500, 95, 342)` has width `max 0 (95 - 500) = 0`, so the
non-positive-dimension validation fires — and the page's crop box is
unchanged by the failed call (the validation precedes `set_cropbox`). -/
theorem C9_crop_rejects_oversized_margins :
    crop_page [⟨⟨0, 0, 595, 842⟩⟩] 0 500 500 500 500
      = ([⟨⟨0, 0, 595, 842⟩⟩], .error (.http 400)) ∧
    Rect.w ⟨500, 500, 95, 342⟩ = 0 := by
  constructor
  · norm_num [crop_page, Rect.w, Rect.h]
  · norm_num [Rect.w]

/-- Claim C6: invoking `replace_text_preserve_font`,
`add_freehand_highlight` or `replace_image` with `page_num` at or past
the page count, or negative, raises `InvalidOperationError` before any
mutation: the operation returns the document unchanged together with
the error. -/
theorem C6_out_of_range_rejection (n : Int) :
    (∀ (doc : TDoc) (search_text new_text : String),
        n < 0 ∨ (doc.length : Int) ≤ n →
        replace_text_preserve_font doc n search_text new_text
          = (doc, .error .invalidOperation)) ∧
    (∀ (doc : ADoc) (points : List (ℚ × ℚ)),
        n < 0 ∨ (doc.length : Int) ≤ n →
        add_freehand_highlight doc n points = (doc, .error .invalidOperation)) ∧
    (∀ (doc : IDoc) (old_rect : Rect) (fileExists : Bool)
        (img : Option (ℚ × ℚ)) (maintain_aspect : Bool),
        n < 0 ∨ (doc.length : Int) ≤ n →
        replace_image doc n old_rect fileExists img maintain_aspect
          = (doc, .error .invalidOperation)) := by
  refine ⟨fun doc s t h => ?_, fun doc pts h => ?_,
          fun doc r fe img ma h => ?_⟩
  · unfold replace_text_preserve_font
    rw [if_pos h]
  · unfold add_freehand_highlight
    rw [if_pos h]
  · unfold replace_image
    rw [if_pos h]

theorem C6_out_of_range_rejection_witness :
    replace_text_preserve_font [⟨[], [], []⟩] 1 "a" "b"
      = ([⟨[], [], []⟩], .error .invalidOperation) ∧
    add_freehand_highlight [⟨[]⟩] 1 [(0, 0), (1, 1)]
      = ([⟨[]⟩], .error .invalidOperation) ∧
    replace_image [⟨[]⟩] 1 ⟨0, 0, 1, 1⟩ true none true
      = ([⟨[]⟩], .error .invalidOperation) :=
  ⟨(C6_out_of_range_rejection 1).1 [⟨[], [], []⟩] "a" "b" (by decide),
   (C6_out_of_range_rejection 1).2.1 [⟨[]⟩] [(0, 0), (1, 1)] (by decide),
   (C6_out_of_range_rejection 1).2.2 [⟨[]⟩] ⟨0, 0, 1, 1⟩ true none true (by decide)⟩

/-- A perpendicular datum is well-formed: the guarded slope division
succeeded, and the normalisation divisor `sqrt (normSq v)` has
`normSq v ≥ 1`, hence is nonzero. -/
def perpOk : Option (ℚ × ℚ) → Bool
  | none => false
  | some v => decide (1 ≤ normSq v)

theorem segPerp_ok (p q : ℚ × ℚ) : perpOk (segPerp p q) = true := by
  unfold segPerp
  by_cases h : q.1 = p.1
  · rw [if_neg (by simpa using h)]
    simp [perpOk, normSq]
  · rw [if_pos h]
    rw [safeDiv, if_neg (by simpa [sub_eq_zero] using h)]
    simp [perpOk, normSq]
    nlinarith [sq_nonneg ((q.2 - p.2) / (q.1 - p.1))]

theorem consecPairs_length (l : List α) :
    (consecPairs l).length = l.length - 1 := by
  induction l with
  | nil => rfl
  | cons a t ih =>
    cases t with
    | nil => rfl
    | cons b r =>
      simp only [consecPairs, List.length_cons] at ih ⊢
      omega

/-- Claim C7, counterexample: the claim says zero-length segments
(consecutive duplicate points) are skipped, so that every emitted quad
comes from a segment of positive length.  The source does not skip
them: for the duplicate pair `(0,0), (0,0)` it takes the `x2 == x1`
branch and emits one (degenerate) quad with perpendicular `(1, 0)`. -/
theorem C7_zero_length_segment_counterexample :
    freehandQuadPerps [((0 : ℚ), (0 : ℚ)), (0, 0)] = [some (1, 0)] ∧
    (freehandQuadPerps [((0 : ℚ), (0 : ℚ)), (0, 0)]).length = 1 := by
  constructor
  · norm_num [freehandQuadPerps, consecPairs, segPerp]
  · norm_num [freehandQuadPerps, consecPairs]

/-- Claim C7, amended: the perpendicular-offset computation of
`add_freehand_highlight` never divides by zero — a zero-length segment
(and any vertical segment) takes the `x2 == x1` branch with the fixed
perpendicular `(1, 0)`, the slope division only happens when
`x2 - x1 ≠ 0`, and the normalisation divisor always has squared length
at least 1 — but zero-length segments are *not* skipped: one quad is
emitted per consecutive pair of points, duplicates included. -/
theorem C7_freehand_quads_amended (points : List (ℚ × ℚ)) :
    (freehandQuadPerps points).length = points.length - 1 ∧
    (freehandQuadPerps points).all perpOk = true := by
  constructor
  · unfold freehandQuadPerps
    rw [List.length_map, consecPairs_length]
  · unfold freehandQuadPerps
    rw [List.all_eq_true]
    intro o ho
    obtain ⟨pq, hpq, rfl⟩ := List.mem_map.mp ho
    exact segPerp_ok pq.1 pq.2

theorem replaceStep_snd (pn : Nat) (t : String) (d : TDoc) (c : Nat)
    (r : List Rect) (x : Rect) :
    (replaceStep pn t (d, c, r) x).2 = (c + 1, r ++ [x]) := rfl

theorem replaceStep_foldl (pn : Nat) (t : String) (l : List Rect)
    (d : TDoc) (c : Nat) (r : List Rect) :
    (l.foldl (replaceStep pn t) (d, c, r)).2 = (c + l.length, r ++ l) := by
  induction l generalizing d c r with
  | nil => simp
  | cons x xs ih =>
    rw [List.foldl_cons]
    have hx : replaceStep pn t (d, c, r) x
        = ((replaceStep pn t (d, c, r) x).1, c + 1, r ++ [x]) :=
      Prod.ext rfl (replaceStep_snd pn t d c r x)
    rw [hx, ih]
    simp [List.append_assoc]
    omega

/-- Claim C8: for a valid page index and non-empty search string,
`replace_text_preserve_font` with zero occurrences of the search string
is not an error — it returns a `count = 0` result with the document
untouched — and with occurrences present it returns the number of
replacements performed together with the list of affected
rectangles. -/
theorem C8_zero_matches_is_ok (doc : TDoc) (page_num : Int)
    (search_text new_text : String)
    (h0 : 0 ≤ page_num) (hn : page_num < (doc.length : Int))
    (hs : search_text ≠ "") :
    (searchFor (doc.getD page_num.toNat default) search_text = [] →
        replace_text_preserve_font doc page_num search_text new_text
          = (doc, .ok (0, []))) ∧
    (∀ occs : List Rect,
        searchFor (doc.getD page_num.toNat default) search_text = occs →
        occs ≠ [] →
        (replace_text_preserve_font doc page_num search_text new_text).2
          = .ok (occs.length, occs)) := by
  have hcond : ¬(page_num < 0 ∨ (doc.length : Int) ≤ page_num) := by omega
  have hbeq : ¬((search_text == "") = true) := by simpa using hs
  constructor
  · intro hempty
    unfold replace_text_preserve_font
    rw [if_neg hcond, if_neg hbeq]
    have hside : (searchFor (doc.getD page_num.toNat default)
        search_text).isEmpty = true := by
      rw [hempty]
      rfl
    rw [if_pos hside]
  · intro occs hocc hne
    unfold replace_text_preserve_font
    rw [if_neg hcond, if_neg hbeq]
    simp only [hocc]
    rw [if_neg (by simp [hne])]
    simp [replaceStep_foldl]

theorem C8_zero_matches_is_ok_witness :
    replace_text_preserve_font [⟨[], [("x", [⟨0, 0, 10, 10⟩])], []⟩] 0 "y" "z"
      = ([⟨[], [("x", [⟨0, 0, 10, 10⟩])], []⟩], .ok (0, [])) ∧
    (replace_text_preserve_font [⟨[], [("x", [⟨0, 0, 10, 10⟩])], []⟩] 0 "x" "z").2
      = .ok (1, [⟨0, 0, 10, 10⟩]) :=
  ⟨(C8_zero_matches_is_ok [⟨[], [("x", [⟨0, 0, 10, 10⟩])], []⟩] 0 "y" "z"
      (by decide) (by decide) (by decide)).1 (by decide),
   (C8_zero_matches_is_ok [⟨[], [("x", [⟨0, 0, 10, 10⟩])], []⟩] 0 "x" "z"
      (by decide) (by decide) (by decide)).2 [⟨0, 0, 10, 10⟩] (by decide) (by decide)⟩

theorem setTocStep_valid (d : NavDoc) (kept : List TocEntry)
    (errs : List String) (i : Nat) (item : TocEntry)
    (h : validTocPage d item = true) :
    setTocStep d (kept, errs, i) item = (kept ++ [item], errs, i + 1) := by
  unfold setTocStep
  dsimp only
  rw [if_neg (by simp [validTocPage] at h; omega)]

theorem setTocStep_invalid (d : NavDoc) (kept : List TocEntry)
    (errs : List String) (i : Nat) (item : TocEntry)
    (h : validTocPage d item = false) :
    setTocStep d (kept, errs, i) item
      = (kept, errs ++ [tocItemError i item.page], i + 1) := by
  unfold setTocStep
  dsimp only
  rw [if_pos (by simp [validTocPage] at h; omega)]

theorem setToc_foldl (d : NavDoc) (items : List TocEntry)
    (kept : List TocEntry) (errs : List String) (i : Nat) :
    (items.foldl (setTocStep d) (kept, errs, i)).1
        = kept ++ items.filter (validTocPage d) ∧
    (items.foldl (setTocStep d) (kept, errs, i)).2.1.length
        = errs.length + (items.filter fun e => !validTocPage d e).length := by
  induction items generalizing kept errs i with
  | nil => simp
  | cons x xs ih =>
    rw [List.foldl_cons]
    by_cases hx : validTocPage d x = true
    · rw [setTocStep_valid d kept errs i x hx]
      obtain ⟨ih1, ih2⟩ := ih (kept ++ [x]) errs (i + 1)
      refine ⟨?_, ?_⟩
      · rw [ih1]
        simp [List.filter_cons, hx]
      · rw [ih2]
        simp [List.filter_cons, hx]
    · have hx' : validTocPage d x = false := by simpa using hx
      rw [setTocStep_invalid d kept errs i x hx']
      obtain ⟨ih1, ih2⟩ := ih kept (errs ++ [tocItemError i x.page]) (i + 1)
      refine ⟨?_, ?_⟩
      · rw [ih1]
        simp [List.filter_cons, hx']
      · rw [ih2]
        simp [List.filter_cons, hx']
        omega

/-- Claim C10: `set_toc` never fails because of an entry with an
out-of-range page number: those entries are silently dropped with one
error string each, the remaining valid entries are written as the
document's entire TOC, and the returned count equals the number of
entries actually written. -/
theorem C10_set_toc_drops_invalid (d : NavDoc) (items : List TocEntry) :
    ∃ errs : List String,
      set_toc d items
        = ({ d with toc := items.filter (validTocPage d) },
           .ok ((items.filter (validTocPage d)).length, errs)) ∧
      errs.length = (items.filter fun e => !validTocPage d e).length := by
  obtain ⟨h1, h2⟩ := setToc_foldl d items [] [] 0
  simp only [List.nil_append, List.length_nil, Nat.zero_add] at h1 h2
  refine ⟨(items.foldl (setTocStep d) ([], [], 0)).2.1, ?_, h2⟩
  unfold set_toc
  dsimp only
  rw [h1]

end PDFEd
